import Mathlib

/-!
Shallow embedding of the CodeCollab backend (src/index.js): the Socket.IO
room/session event handlers (join, languageChange, codeChange, remark:add,
leaveRoom/disconnect) over a Mongo-backed Room/Remark store, and the
/compile polling loop against the Judge0 execution service.

The persistent store is modelled as the lists of Room and Remark documents;
`Room.findOne`, `save` (upsert) and `findOneAndUpdate` with `$pull` become
list operations. Socket emissions are collected into a list of `Emit`
values recording destination and payload. JavaScript truthiness of the
guard `if (currentRoom && currentUser)` is embedded exactly: `null` and the
empty string are falsy.
-/

/-- A Room document (roomSchema, src/index.js lines 184-189): `code`
defaults to `""`, `language` defaults to `"javascript"`. -/
structure Room where
  roomId : String
  users : List String
  code : String
  language : String
deriving Repr, DecidableEq

/-- `new Room({ roomId, users: [userName] })` — schema defaults fill
`code` and `language`. -/
def Room.new (roomId userName : String) : Room :=
  { roomId := roomId, users := [userName], code := "", language := "javascript" }

/-- A Remark document (remarkSchema, src/index.js lines 174-182).
`userName` and `role` are copied from the per-connection variables, which
are `null` until a join, hence `Option`. `createdAt` defaults to `Date.now`
(passed in as `now`); `resolved` defaults to `false`. -/
structure Remark where
  roomId : String
  userName : Option String
  role : Option String
  text : String
  line : Int
  createdAt : Nat
  resolved : Bool
deriving Repr, DecidableEq

/-- Per-connection closure state (src/index.js lines 198-200):
`currentRoom`, `currentUser`, `currentRole`, all initialised to `null`. -/
structure Session where
  currentRoom : Option String
  currentUser : Option String
  currentRole : Option String
deriving Repr, DecidableEq

/-- The connection's initial state: all three variables `null`. -/
def Session.initial : Session := ⟨none, none, none⟩

/-- The persistent store: the Room collection and the Remark collection. -/
structure ServerState where
  rooms : List Room
  remarks : List Remark
deriving Repr, DecidableEq

/-- A socket emission. `userJoined` is `io.to(roomId).emit` (everyone in
the room), `codeUpdateSelf`/`languageUpdateSelf` are `socket.emit` (the
handling connection only), `codeUpdateOthers`/`languageUpdateOthers` are
`socket.to(roomId).emit` (everyone in the room except the sender), and
`remarkUpdate` is `io.to(roomId).emit`. -/
inductive Emit where
  | userJoined (roomId : String) (users : List String)
  | codeUpdateSelf (code : String)
  | languageUpdateSelf (language : String)
  | codeUpdateOthers (roomId : String) (code : String)
  | languageUpdateOthers (roomId : String) (language : String)
  | remarkUpdate (roomId : String) (r : Remark)
deriving Repr, DecidableEq

/-- `Room.findOne({ roomId })`: the first (by the unique index, only)
document whose `roomId` matches. -/
def findOne (rooms : List Room) (roomId : String) : Option Room :=
  rooms.find? (fun r => r.roomId == roomId)

/-- Whether a Room with this id exists in the store. -/
def roomExists (st : ServerState) (roomId : String) : Bool :=
  st.rooms.any (fun r => r.roomId == roomId)

/-- `room.save()`: upsert by `roomId` — replace the document when present,
append it when absent. -/
def saveRoom (rooms : List Room) (room : Room) : List Room :=
  if rooms.any (fun r => r.roomId == room.roomId) then
    rooms.map (fun r => if r.roomId == room.roomId then room else r)
  else
    rooms ++ [room]

/-- socket.on("join") (src/index.js lines 202-216): bind the session
variables, find-or-create the Room, add the user if absent, save, then
broadcast `userJoined` room-wide and unicast `codeUpdate` and
`languageUpdate` to the joining connection. -/
def handleJoin (st : ServerState) (_sess : Session)
    (roomId userName role : String) : ServerState × Session × List Emit :=
  let sess' : Session := ⟨some roomId, some userName, some role⟩
  let room :=
    match findOne st.rooms roomId with
    | none => Room.new roomId userName
    | some r => if r.users.contains userName then r
                else { r with users := r.users ++ [userName] }
  let st' := { st with rooms := saveRoom st.rooms room }
  (st', sess',
    [Emit.userJoined roomId room.users,
     Emit.codeUpdateSelf room.code,
     Emit.languageUpdateSelf room.language])

/-- socket.on("languageChange") (src/index.js lines 218-227): gated on
`currentRole === "Developer" || currentRole === "Admin"`; looks up the
payload's `roomId`; when found, writes `language`, saves, and emits
`languageUpdate` to the others in that room. -/
def handleLanguageChange (st : ServerState) (sess : Session)
    (roomId language : String) : ServerState × List Emit :=
  if sess.currentRole == some "Developer" || sess.currentRole == some "Admin" then
    match findOne st.rooms roomId with
    | some room =>
        let room' := { room with language := language }
        ({ st with rooms := saveRoom st.rooms room' },
         [Emit.languageUpdateOthers roomId language])
    | none => (st, [])
  else (st, [])

/-- socket.on("codeChange") (src/index.js lines 229-238): same gate and
shape as languageChange, writing `code` and emitting `codeUpdate` to the
others in the payload's room. -/
def handleCodeChange (st : ServerState) (sess : Session)
    (roomId code : String) : ServerState × List Emit :=
  if sess.currentRole == some "Developer" || sess.currentRole == some "Admin" then
    match findOne st.rooms roomId with
    | some room =>
        let room' := { room with code := code }
        ({ st with rooms := saveRoom st.rooms room' },
         [Emit.codeUpdateOthers roomId code])
    | none => (st, [])
  else (st, [])

/-- socket.on("remark:add") (src/index.js lines 240-246): gated on
`currentRole === "Tester"`; builds a Remark from the session's
userName/role, the payload's text/line, `createdAt = now` and
`resolved = false`, saves it, and emits `remark:update` to the whole room
including the author. -/
def handleRemarkAdd (st : ServerState) (sess : Session)
    (roomId text : String) (line : Int) (now : Nat) :
    ServerState × List Emit :=
  if sess.currentRole == some "Tester" then
    let r : Remark :=
      { roomId := roomId, userName := sess.currentUser, role := sess.currentRole,
        text := text, line := line, createdAt := now, resolved := false }
    ({ st with remarks := st.remarks ++ [r] }, [Emit.remarkUpdate roomId r])
  else (st, [])

/-- JavaScript truthiness for the string-or-null session variables:
`null` and `""` are falsy. -/
def truthy : Option String → Bool
  | none => false
  | some s => !(s == "")

/-- handleUserExit (src/index.js lines 250-269), shared by leaveRoom and
disconnect: guarded by `if (currentRoom && currentUser)` (JS truthiness);
`findOneAndUpdate` with `$pull` removes every occurrence of the user from
the joined room's `users`; when the room exists the updated list is
broadcast; the session variables are then reset to `null`. -/
def handleUserExit (st : ServerState) (sess : Session) :
    ServerState × Session × List Emit :=
  if truthy sess.currentRoom && truthy sess.currentUser then
    match sess.currentRoom, sess.currentUser with
    | some roomId, some userName =>
      match findOne st.rooms roomId with
      | some room =>
          let room' := { room with users := room.users.filter (fun u => u != userName) }
          ({ st with rooms := saveRoom st.rooms room' },
           Session.initial,
           [Emit.userJoined roomId room'.users])
      | none => (st, Session.initial, [])
    | _, _ => (st, sess, [])
  else (st, sess, [])

/-- One inbound event, tagged with everything the handlers read from the
wire payload (`now` is the clock observed by `Date.now` for remark:add). -/
inductive Event where
  | join (roomId userName role : String)
  | languageChange (roomId language : String)
  | codeChange (roomId code : String)
  | remarkAdd (roomId text : String) (line : Int) (now : Nat)
  | leaveRoom
  | disconnect
deriving Repr, DecidableEq

/-- Dispatch one event from one connection (with its session state)
against the store, returning the updated store, updated session and the
emissions. leaveRoom and disconnect both run handleUserExit. -/
def step (st : ServerState) (sess : Session) (ev : Event) :
    ServerState × Session × List Emit :=
  match ev with
  | .join roomId userName role => handleJoin st sess roomId userName role
  | .languageChange roomId language =>
      let (st', es) := handleLanguageChange st sess roomId language
      (st', sess, es)
  | .codeChange roomId code =>
      let (st', es) := handleCodeChange st sess roomId code
      (st', sess, es)
  | .remarkAdd roomId text line now =>
      let (st', es) := handleRemarkAdd st sess roomId text line now
      (st', sess, es)
  | .leaveRoom => handleUserExit st sess
  | .disconnect => handleUserExit st sess

/-- The store after one event from an arbitrary connection. -/
def stepState (st : ServerState) (p : Session × Event) : ServerState :=
  (step st p.1 p.2).1

/-- The store after a sequence of events, each from its own (arbitrary)
connection. -/
def runEvents (st : ServerState) (ps : List (Session × Event)) : ServerState :=
  ps.foldl stepState st

/-! ### Fallible persistence

The handlers `await` each store write with no try/catch around them: when a
save rejects, the async handler aborts at that point as an unhandled
rejection — every statement after the failed `await` (including the emits)
is skipped, and nothing is sent to anyone. The variants below take a
`saveOk` flag for the store write and record in `threw` whether the handler
aborted. -/

/-- Outcome of a fallible handler: the durable store, the emissions that
happened before any abort, and whether an unhandled rejection occurred. -/
structure FallibleOut where
  state : ServerState
  emits : List Emit
  threw : Bool
deriving Repr, DecidableEq

/-- codeChange with a fallible `room.save()`: on failure the durable store
keeps its old contents, the `socket.to(roomId).emit` on the next line is
never reached, and no failure message of any kind is emitted. -/
def handleCodeChangeF (st : ServerState) (sess : Session)
    (roomId code : String) (saveOk : Bool) : FallibleOut :=
  if sess.currentRole == some "Developer" || sess.currentRole == some "Admin" then
    match findOne st.rooms roomId with
    | some room =>
        if saveOk then
          let room' := { room with code := code }
          ⟨{ st with rooms := saveRoom st.rooms room' },
           [Emit.codeUpdateOthers roomId code], false⟩
        else ⟨st, [], true⟩
    | none => ⟨st, [], false⟩
  else ⟨st, [], false⟩

/-- languageChange with a fallible `room.save()`. -/
def handleLanguageChangeF (st : ServerState) (sess : Session)
    (roomId language : String) (saveOk : Bool) : FallibleOut :=
  if sess.currentRole == some "Developer" || sess.currentRole == some "Admin" then
    match findOne st.rooms roomId with
    | some room =>
        if saveOk then
          let room' := { room with language := language }
          ⟨{ st with rooms := saveRoom st.rooms room' },
           [Emit.languageUpdateOthers roomId language], false⟩
        else ⟨st, [], true⟩
    | none => ⟨st, [], false⟩
  else ⟨st, [], false⟩

/-- remark:add with a fallible `remark.save()`. -/
def handleRemarkAddF (st : ServerState) (sess : Session)
    (roomId text : String) (line : Int) (now : Nat) (saveOk : Bool) :
    FallibleOut :=
  if sess.currentRole == some "Tester" then
    if saveOk then
      let r : Remark :=
        { roomId := roomId, userName := sess.currentUser, role := sess.currentRole,
          text := text, line := line, createdAt := now, resolved := false }
      ⟨{ st with remarks := st.remarks ++ [r] }, [Emit.remarkUpdate roomId r], false⟩
    else ⟨st, [], true⟩
  else ⟨st, [], false⟩

/-- join with a fallible `room.save()`: the session variables and
`socket.join` happen before the save, so they take effect either way; on
failure none of the three emits is reached. -/
def handleJoinF (st : ServerState) (_sess : Session)
    (roomId userName role : String) (saveOk : Bool) :
    ServerState × Session × List Emit × Bool :=
  let sess' : Session := ⟨some roomId, some userName, some role⟩
  let room :=
    match findOne st.rooms roomId with
    | none => Room.new roomId userName
    | some r => if r.users.contains userName then r
                else { r with users := r.users ++ [userName] }
  if saveOk then
    ({ st with rooms := saveRoom st.rooms room }, sess',
     ([Emit.userJoined roomId room.users,
       Emit.codeUpdateSelf room.code,
       Emit.languageUpdateSelf room.language], false))
  else (st, sess', ([], true))

/-! ### The /compile polling loop

src/index.js lines 135-161: after submission, the handler loops — fetch
the submission, and `if (result.status.id > 2) break;` else sleep 2000 ms
and poll again. The sequence of poll responses is modelled as a list; the
loop consumes it in order. The response body sent back on termination is
`{output: output || error || "No output", status: result.status.description,
memory: result.memory, time: result.time}` where `output`/`error` are the
decoded stdout/stderr or `null` (JS `||` skips null and empty strings). -/

/-- A poll response from the execution service; `stdout`/`stderr` are the
decoded texts when present. `memory` and `time` are carried unchanged. -/
structure ExecResult where
  statusId : Nat
  statusDescription : String
  stdout : Option String
  stderr : Option String
  memory : Nat
  time : String
deriving Repr, DecidableEq

/-- The fixed completion threshold in `if (result.status.id > 2)`. -/
def inProgressThreshold : Nat := 2

/-- The fixed polling interval, `sleep(2000)`. -/
def pollIntervalMs : Nat := 2000

/-- The polling loop over the stream of responses: return the first
response whose status id exceeds the threshold; `none` models the loop
still running when the stream is exhausted. -/
def pollLoop : List ExecResult → Option ExecResult
  | [] => none
  | r :: rs => if r.statusId > inProgressThreshold then some r else pollLoop rs

/-- JavaScript `a || b` on a string-or-null left operand. -/
def jsOrElse (a : Option String) (b : String) : String :=
  match a with
  | none => b
  | some s => if s == "" then b else s

/-- The JSON body `res.json({output, status, memory, time})` built from the
terminal poll result. -/
def compileResponse (r : ExecResult) : String × String × Nat × String :=
  (jsOrElse r.stdout (jsOrElse r.stderr "No output"),
   r.statusDescription, r.memory, r.time)

/-- The /compile handler tail: run the polling loop and, when it
terminates, build the response body. -/
def compileHandler (responses : List ExecResult) :
    Option (String × String × Nat × String) :=
  (pollLoop responses).map compileResponse

/-- Invariant of the store: no room's membership list carries a duplicate
display name. -/
def NodupUsers (st : ServerState) : Prop :=
  ∀ r ∈ st.rooms, r.users.Nodup

/-! ### Lemmas about the store operations -/

lemma findOne_eq_none_of_not_exists {st : ServerState} {roomId : String}
    (h : roomExists st roomId = false) : findOne st.rooms roomId = none := by
  rw [findOne, List.find?_eq_none]
  intro x hx hpx
  have : st.rooms.any (fun r => r.roomId == roomId) = true :=
    List.any_eq_true.mpr ⟨x, hx, hpx⟩
  rw [roomExists] at h
  simp [this] at h

lemma findOne_roomId {rooms : List Room} {roomId : String} {r : Room}
    (h : findOne rooms roomId = some r) : r.roomId = roomId := by
  rw [findOne] at h
  exact beq_iff_eq.mp (List.find?_eq_some.mp h).1

lemma findOne_mem {rooms : List Room} {roomId : String} {r : Room}
    (h : findOne rooms roomId = some r) : r ∈ rooms :=
  List.mem_of_find?_eq_some h

lemma any_of_findOne_some {rooms : List Room} {roomId : String} {r : Room}
    (h : findOne rooms roomId = some r) :
    rooms.any (fun x => x.roomId == roomId) = true := by
  refine List.any_eq_true.mpr ⟨r, findOne_mem h, ?_⟩
  simp [findOne_roomId h]

lemma find?_map_update {l : List Room} {roomId : String} {newRoom : Room}
    (hid : newRoom.roomId = roomId)
    (h : ∃ r, l.find? (fun x => x.roomId == roomId) = some r) :
    (l.map (fun x => if x.roomId == newRoom.roomId then newRoom else x)).find?
      (fun x => x.roomId == roomId) = some newRoom := by
  induction l with
  | nil => simp at h
  | cons x xs ih =>
    by_cases hx : x.roomId = roomId
    · simp [hid, hx]
    · obtain ⟨r, hr⟩ := h
      rw [List.find?_cons_of_neg _ (by simp [hx])] at hr
      rw [List.map_cons]
      have hxne : (x.roomId == newRoom.roomId) = false := by
        simp [hid]; exact hx
      rw [if_neg (by simp [hid]; exact hx)]
      rw [List.find?_cons_of_neg _ (by simp [hx])]
      exact ih ⟨r, hr⟩

lemma find?_map_update_other {l : List Room} {roomId : String} {newRoom : Room}
    (hne : newRoom.roomId ≠ roomId) :
    (l.map (fun x => if x.roomId == newRoom.roomId then newRoom else x)).find?
      (fun x => x.roomId == roomId) = l.find? (fun x => x.roomId == roomId) := by
  induction l with
  | nil => simp
  | cons x xs ih =>
    rw [List.map_cons]
    by_cases hrep : x.roomId = newRoom.roomId
    · have hxne : x.roomId ≠ roomId := fun hc => hne (hrep ▸ hc)
      rw [if_pos (by simp [hrep])]
      rw [List.find?_cons_of_neg _ (by simp; exact hne)]
      rw [List.find?_cons_of_neg _ (by simp; exact hxne)]
      exact ih
    · rw [if_neg (by simp; exact hrep)]
      by_cases hx : x.roomId = roomId
      · rw [List.find?_cons_of_pos _ (by simp [hx]),
            List.find?_cons_of_pos _ (by simp [hx])]
      · rw [List.find?_cons_of_neg _ (by simp [hx]),
            List.find?_cons_of_neg _ (by simp [hx])]
        exact ih

lemma findOne_saveRoom_update {rooms : List Room} {roomId : String}
    {r newRoom : Room} (h : findOne rooms roomId = some r)
    (hid : newRoom.roomId = roomId) :
    findOne (saveRoom rooms newRoom) roomId = some newRoom := by
  rw [saveRoom, if_pos (by rw [hid]; exact any_of_findOne_some h)]
  exact find?_map_update hid ⟨r, h⟩

lemma findOne_saveRoom_other {rooms : List Room} {newRoom : Room}
    {roomId : String} (hne : newRoom.roomId ≠ roomId) :
    findOne (saveRoom rooms newRoom) roomId = findOne rooms roomId := by
  rw [saveRoom]
  split
  · exact find?_map_update_other hne
  · rw [findOne, List.find?_append, findOne]
    have : List.find? (fun x => x.roomId == roomId) [newRoom] = none := by
      rw [List.find?_eq_none]
      intro x hx
      simp at hx
      subst hx
      simp [hne]
    rw [this, Option.or_none]

lemma findOne_saveRoom_new {rooms : List Room} {newRoom : Room}
    (h : rooms.any (fun r => r.roomId == newRoom.roomId) = false) :
    findOne (saveRoom rooms newRoom) newRoom.roomId = some newRoom := by
  rw [saveRoom, if_neg (by simp [h]), findOne, List.find?_append]
  have h1 : List.find? (fun x => x.roomId == newRoom.roomId) rooms = none := by
    rw [List.find?_eq_none]
    intro x hx hpx
    have : rooms.any (fun r => r.roomId == newRoom.roomId) = true :=
      List.any_eq_true.mpr ⟨x, hx, hpx⟩
    simp [this] at h
  rw [h1]
  simp [List.find?]

lemma any_saveRoom_mono {rooms : List Room} {room : Room} {roomId : String}
    (h : rooms.any (fun r => r.roomId == roomId) = true) :
    (saveRoom rooms room).any (fun r => r.roomId == roomId) = true := by
  rw [saveRoom]
  split
  · obtain ⟨x, hx, hpx⟩ := List.any_eq_true.mp h
    rw [List.any_map]
    refine List.any_eq_true.mpr ⟨x, hx, ?_⟩
    by_cases hrep : x.roomId = room.roomId
    · have hx2 : room.roomId = roomId := by
        rw [← hrep]
        exact beq_iff_eq.mp hpx
      simp [Function.comp, hrep, hx2]
    · simp only [Function.comp, if_neg (by simp [hrep] : ¬(x.roomId == room.roomId) = true)]
      exact hpx
  · obtain ⟨x, hx, hpx⟩ := List.any_eq_true.mp h
    exact List.any_eq_true.mpr ⟨x, List.mem_append_left _ hx, hpx⟩

lemma saveRoom_pred (P : Room → Prop) {rooms : List Room} (newRoom : Room)
    (hall : ∀ r ∈ rooms, P r) (hnew : P newRoom) :
    ∀ r ∈ saveRoom rooms newRoom, P r := by
  intro r hr
  rw [saveRoom] at hr
  split at hr
  · obtain ⟨x, hx, hfx⟩ := List.mem_map.mp hr
    by_cases hrep : x.roomId = newRoom.roomId
    · rw [if_pos (by simp [hrep])] at hfx
      exact hfx ▸ hnew
    · rw [if_neg (by simp [hrep])] at hfx
      exact hfx ▸ hall x hx
  · rcases List.mem_append.mp hr with h1 | h2
    · exact hall r h1
    · simp at h2
      exact h2 ▸ hnew

/-! ### Preservation lemmas: no handler ever deletes a Room, and no
handler introduces a duplicate user name into a membership list. -/

lemma roomExists_handleJoin {st : ServerState} {rid : String} (sess : Session)
    (roomId userName role : String) (h : roomExists st rid = true) :
    roomExists (handleJoin st sess roomId userName role).1 rid = true :=
  any_saveRoom_mono h

lemma roomExists_handleCodeChange {st : ServerState} {rid : String}
    (sess : Session) (roomId code : String) (h : roomExists st rid = true) :
    roomExists (handleCodeChange st sess roomId code).1 rid = true := by
  unfold handleCodeChange
  split
  · split
    · exact any_saveRoom_mono h
    · exact h
  · exact h

lemma roomExists_handleLanguageChange {st : ServerState} {rid : String}
    (sess : Session) (roomId language : String) (h : roomExists st rid = true) :
    roomExists (handleLanguageChange st sess roomId language).1 rid = true := by
  unfold handleLanguageChange
  split
  · split
    · exact any_saveRoom_mono h
    · exact h
  · exact h

lemma roomExists_handleRemarkAdd {st : ServerState} {rid : String}
    (sess : Session) (roomId text : String) (line : Int) (now : Nat)
    (h : roomExists st rid = true) :
    roomExists (handleRemarkAdd st sess roomId text line now).1 rid = true := by
  unfold handleRemarkAdd
  split
  · exact h
  · exact h

lemma roomExists_handleUserExit {st : ServerState} {rid : String}
    (sess : Session) (h : roomExists st rid = true) :
    roomExists (handleUserExit st sess).1 rid = true := by
  unfold handleUserExit
  split
  · split
    · split
      · exact any_saveRoom_mono h
      · exact h
    · exact h
  · exact h

lemma roomExists_step {st : ServerState} {rid : String} (p : Session × Event)
    (h : roomExists st rid = true) : roomExists (stepState st p) rid = true := by
  rcases p with ⟨sess, ev⟩
  cases ev with
  | join roomId userName role => exact roomExists_handleJoin sess roomId userName role h
  | languageChange roomId language => exact roomExists_handleLanguageChange sess roomId language h
  | codeChange roomId code => exact roomExists_handleCodeChange sess roomId code h
  | remarkAdd roomId text line now => exact roomExists_handleRemarkAdd sess roomId text line now h
  | leaveRoom => exact roomExists_handleUserExit sess h
  | disconnect => exact roomExists_handleUserExit sess h

lemma roomExists_runEvents {st : ServerState} {rid : String}
    (ps : List (Session × Event)) (h : roomExists st rid = true) :
    roomExists (runEvents st ps) rid = true := by
  induction ps generalizing st with
  | nil => exact h
  | cons p ps ih => exact ih (roomExists_step p h)

lemma nodupUsers_handleJoin {st : ServerState} (sess : Session)
    (roomId userName role : String) (h : NodupUsers st) :
    NodupUsers (handleJoin st sess roomId userName role).1 := by
  intro r hr
  refine saveRoom_pred (fun x => x.users.Nodup) _ h ?_ r hr
  cases hf : findOne st.rooms roomId with
  | none => simp [Room.new]
  | some r0 =>
    cases hc : r0.users.contains userName with
    | true =>
      simp only [hc, if_pos]
      exact h r0 (findOne_mem hf)
    | false =>
      simp only [hc, Bool.false_eq_true, if_neg, not_false_eq_true]
      have hn := h r0 (findOne_mem hf)
      have hmem : userName ∉ r0.users := by simpa using hc
      simp [List.nodup_append, hn, hmem]

lemma nodupUsers_handleCodeChange {st : ServerState} (sess : Session)
    (roomId code : String) (h : NodupUsers st) :
    NodupUsers (handleCodeChange st sess roomId code).1 := by
  intro r hr
  unfold handleCodeChange at hr
  split at hr
  · split at hr
    next room heq =>
      exact saveRoom_pred (fun x => x.users.Nodup)
        { room with code := code } h (h room (findOne_mem heq)) r hr
    next => exact h r hr
  · exact h r hr

lemma nodupUsers_handleLanguageChange {st : ServerState} (sess : Session)
    (roomId language : String) (h : NodupUsers st) :
    NodupUsers (handleLanguageChange st sess roomId language).1 := by
  intro r hr
  unfold handleLanguageChange at hr
  split at hr
  · split at hr
    next room heq =>
      exact saveRoom_pred (fun x => x.users.Nodup)
        { room with language := language } h (h room (findOne_mem heq)) r hr
    next => exact h r hr
  · exact h r hr

lemma nodupUsers_handleRemarkAdd {st : ServerState} (sess : Session)
    (roomId text : String) (line : Int) (now : Nat) (h : NodupUsers st) :
    NodupUsers (handleRemarkAdd st sess roomId text line now).1 := by
  intro r hr
  unfold handleRemarkAdd at hr
  split at hr
  · exact h r hr
  · exact h r hr

lemma nodupUsers_handleUserExit {st : ServerState} (sess : Session)
    (h : NodupUsers st) : NodupUsers (handleUserExit st sess).1 := by
  intro r hr
  unfold handleUserExit at hr
  split at hr
  · split at hr
    next roomId userName h1 h2 =>
      split at hr
      next room heq =>
        exact saveRoom_pred (fun x => x.users.Nodup)
          { room with users := room.users.filter (fun u => u != userName) } h
          ((h room (findOne_mem heq)).filter _) r hr
      next => exact h r hr
    next => exact h r hr
  · exact h r hr

lemma nodupUsers_step {st : ServerState} (p : Session × Event)
    (h : NodupUsers st) : NodupUsers (stepState st p) := by
  rcases p with ⟨sess, ev⟩
  cases ev with
  | join roomId userName role => exact nodupUsers_handleJoin sess roomId userName role h
  | languageChange roomId language => exact nodupUsers_handleLanguageChange sess roomId language h
  | codeChange roomId code => exact nodupUsers_handleCodeChange sess roomId code h
  | remarkAdd roomId text line now => exact nodupUsers_handleRemarkAdd sess roomId text line now h
  | leaveRoom => exact nodupUsers_handleUserExit sess h
  | disconnect => exact nodupUsers_handleUserExit sess h

lemma nodupUsers_runEvents {st : ServerState} (ps : List (Session × Event))
    (h : NodupUsers st) : NodupUsers (runEvents st ps) := by
  induction ps generalizing st with
  | nil => exact h
  | cons p ps ih => exact ih (nodupUsers_step p h)

/-! ### Concrete states used by the witnesses -/

/-- A store holding one room with prior content. -/
def stW1 : ServerState := ⟨[⟨"r1", ["alice"], "let x = 1", "python"⟩], []⟩

/-- A Tester session joined to room r1. -/
def sessTester : Session := ⟨some "r1", some "bob", some "Tester"⟩

/-- A Developer session joined to room r1. -/
def sessDev : Session := ⟨some "r1", some "alice", some "Developer"⟩

/-- A store holding two rooms, r1 and r2. -/
def stW10 : ServerState :=
  ⟨[⟨"r1", ["alice"], "let x = 1", "python"⟩,
    ⟨"r2", ["bob"], "old", "javascript"⟩], []⟩

/-! ### The claims -/

/-- Claim C1: a session whose role is not "Developer" and not "Admin" (in
particular a "Tester") sending codeChange or languageChange causes no
change to the store at all and no emission of any kind: the denial is
silent. -/
theorem tester_role_gate_silent (st : ServerState) (sess : Session)
    (roomId code language : String)
    (h1 : sess.currentRole ≠ some "Developer")
    (h2 : sess.currentRole ≠ some "Admin") :
    handleCodeChange st sess roomId code = (st, [])
    ∧ handleLanguageChange st sess roomId language = (st, []) := by
  have hgate : (sess.currentRole == some "Developer"
      || sess.currentRole == some "Admin") = false := by
    simp [h1, h2]
  constructor
  · unfold handleCodeChange
    rw [hgate]
    rfl
  · unfold handleLanguageChange
    rw [hgate]
    rfl

/-- Witness for C1 at a concrete Tester session and populated store. -/
theorem tester_role_gate_silent_witness :
    sessTester.currentRole ≠ some "Developer"
    ∧ sessTester.currentRole ≠ some "Admin"
    ∧ handleCodeChange stW1 sessTester "r1" "y" = (stW1, [])
    ∧ handleLanguageChange stW1 sessTester "r1" "java" = (stW1, []) :=
  ⟨by decide, by decide,
   (tester_role_gate_silent stW1 sessTester "r1" "y" "java"
     (by decide) (by decide)).1,
   (tester_role_gate_silent stW1 sessTester "r1" "y" "java"
     (by decide) (by decide)).2⟩

/-- Claim C2: joining a roomId with no existing Room creates a Room with
users exactly [userName], the default code "" and the default language
"javascript", broadcasts the membership list room-wide, and unicasts
codeUpdate and languageUpdate (with the room's code and language) to the
joining connection. -/
theorem join_creates_room_with_defaults (st : ServerState) (sess : Session)
    (roomId userName role : String) (h : roomExists st roomId = false) :
    findOne (handleJoin st sess roomId userName role).1.rooms roomId
      = some { roomId := roomId, users := [userName], code := "",
               language := "javascript" }
    ∧ (handleJoin st sess roomId userName role).2.2
      = [Emit.userJoined roomId [userName], Emit.codeUpdateSelf "",
         Emit.languageUpdateSelf "javascript"] := by
  have hf : findOne st.rooms roomId = none := findOne_eq_none_of_not_exists h
  constructor
  · have hrooms : (handleJoin st sess roomId userName role).1.rooms
        = saveRoom st.rooms (Room.new roomId userName) := by
      simp [handleJoin, hf]
    rw [hrooms]
    exact findOne_saveRoom_new h
  · simp [handleJoin, hf, Room.new]

/-- Witness for C2: joining the fresh room r9. -/
theorem join_creates_room_with_defaults_witness :
    roomExists stW1 "r9" = false
    ∧ findOne (handleJoin stW1 Session.initial "r9" "carol" "Admin").1.rooms "r9"
      = some { roomId := "r9", users := ["carol"], code := "",
               language := "javascript" }
    ∧ (handleJoin stW1 Session.initial "r9" "carol" "Admin").2.2
      = [Emit.userJoined "r9" ["carol"], Emit.codeUpdateSelf "",
         Emit.languageUpdateSelf "javascript"] :=
  ⟨by decide,
   (join_creates_room_with_defaults stW1 Session.initial "r9" "carol" "Admin"
     (by decide)).1,
   (join_creates_room_with_defaults stW1 Session.initial "r9" "carol" "Admin"
     (by decide)).2⟩

/-- Claim C7: codeChange and languageChange from an authorized session
naming a roomId with no existing Room are complete no-ops: the store is
untouched (no Room is created, nothing is written) and nothing is emitted
to anyone. -/
theorem mutation_on_absent_room_noop (st : ServerState) (sess : Session)
    (roomId code language : String) (h : roomExists st roomId = false) :
    handleCodeChange st sess roomId code = (st, [])
    ∧ handleLanguageChange st sess roomId language = (st, []) := by
  have hf : findOne st.rooms roomId = none := findOne_eq_none_of_not_exists h
  constructor
  · unfold handleCodeChange
    rw [hf]
    split <;> rfl
  · unfold handleLanguageChange
    rw [hf]
    split <;> rfl

/-- Witness for C7: a Developer session targeting the absent room r404. -/
theorem mutation_on_absent_room_noop_witness :
    roomExists stW1 "r404" = false
    ∧ handleCodeChange stW1 sessDev "r404" "y" = (stW1, [])
    ∧ handleLanguageChange stW1 sessDev "r404" "java" = (stW1, []) :=
  ⟨by decide,
   (mutation_on_absent_room_noop stW1 sessDev "r404" "y" "java" (by decide)).1,
   (mutation_on_absent_room_noop stW1 sessDev "r404" "y" "java" (by decide)).2⟩

/-- Claim C4: remark:add creates and persists a Remark exactly when the
session's role is "Tester"; the created Remark carries the session's
userName and role, the payload's text and line, the creation timestamp,
and resolved = false, and it is broadcast as remark:update to the whole
room including the author; any other role creates nothing and emits
nothing. -/
theorem remarkAdd_iff_tester (st : ServerState) (sess : Session)
    (roomId text : String) (line : Int) (now : Nat) :
    ((handleRemarkAdd st sess roomId text line now).1.remarks ≠ st.remarks
      ↔ sess.currentRole = some "Tester")
    ∧ (sess.currentRole = some "Tester" →
        handleRemarkAdd st sess roomId text line now
          = ({ st with remarks := st.remarks
                ++ [{ roomId := roomId, userName := sess.currentUser,
                      role := some "Tester", text := text, line := line,
                      createdAt := now, resolved := false }] },
             [Emit.remarkUpdate roomId
                { roomId := roomId, userName := sess.currentUser,
                  role := some "Tester", text := text, line := line,
                  createdAt := now, resolved := false }]))
    ∧ (sess.currentRole ≠ some "Tester" →
        handleRemarkAdd st sess roomId text line now = (st, [])) := by
  by_cases hT : sess.currentRole = some "Tester"
  · have hgate : (sess.currentRole == some "Tester") = true := by simp [hT]
    refine ⟨?_, fun _ => ?_, fun hc => absurd hT hc⟩
    · constructor
      · intro _
        exact hT
      · intro _ hEq
        have hlen := congrArg List.length hEq
        simp [handleRemarkAdd, hgate] at hlen
    · simp [handleRemarkAdd, hgate, hT]
  · have hgate : (sess.currentRole == some "Tester") = false := by simp [hT]
    have hnoop : handleRemarkAdd st sess roomId text line now = (st, []) := by
      unfold handleRemarkAdd
      rw [hgate]
      rfl
    refine ⟨?_, fun hc => absurd hc hT, fun _ => hnoop⟩
    rw [hnoop]
    simp [hT]

/-- Witness for C4 at a Tester session. -/
theorem remarkAdd_iff_tester_witness :
    sessTester.currentRole = some "Tester"
    ∧ handleRemarkAdd stW1 sessTester "r1" "check this" 1 100
      = ({ stW1 with remarks :=
            [{ roomId := "r1", userName := some "bob", role := some "Tester",
               text := "check this", line := 1, createdAt := 100,
               resolved := false }] },
         [Emit.remarkUpdate "r1"
            { roomId := "r1", userName := some "bob", role := some "Tester",
              text := "check this", line := 1, createdAt := 100,
              resolved := false }]) :=
  ⟨by decide,
   (remarkAdd_iff_tester stW1 sessTester "r1" "check this" 1 100).2.1 (by decide)⟩

/-- Claim C10 (implicit): codeChange, languageChange and remark:add act on
the room named by the payload's roomId, never on the session's stored
currentRoom: the handlers' outcome is invariant under changing
currentRoom (only currentRole, and for remark:add currentUser, matter),
and a Developer session joined to one room mutates and broadcasts to any
other existing room named in the payload, leaving its own room's entry
untouched. -/
theorem handlers_address_payload_room (st : ServerState) :
    (∀ s t : Session, ∀ roomId code : String, s.currentRole = t.currentRole →
        handleCodeChange st s roomId code = handleCodeChange st t roomId code)
    ∧ (∀ s t : Session, ∀ roomId language : String,
        s.currentRole = t.currentRole →
        handleLanguageChange st s roomId language
          = handleLanguageChange st t roomId language)
    ∧ (∀ s t : Session, ∀ roomId text : String, ∀ line : Int, ∀ now : Nat,
        s.currentRole = t.currentRole → s.currentUser = t.currentUser →
        handleRemarkAdd st s roomId text line now
          = handleRemarkAdd st t roomId text line now)
    ∧ (∀ s : Session, ∀ joined target code : String, ∀ room : Room,
        s.currentRoom = some joined → s.currentRole = some "Developer" →
        findOne st.rooms target = some room →
        findOne (handleCodeChange st s target code).1.rooms target
          = some { room with code := code }
        ∧ (handleCodeChange st s target code).2
          = [Emit.codeUpdateOthers target code]
        ∧ (joined ≠ target →
            findOne (handleCodeChange st s target code).1.rooms joined
              = findOne st.rooms joined)) := by
  refine ⟨?_, ?_, ?_, ?_⟩
  · intro s t roomId code hrole
    unfold handleCodeChange
    rw [hrole]
  · intro s t roomId language hrole
    unfold handleLanguageChange
    rw [hrole]
  · intro s t roomId text line now hrole huser
    unfold handleRemarkAdd
    rw [hrole, huser]
  · intro s joined target code room hjoined hrole hfind
    have hgate : (s.currentRole == some "Developer"
        || s.currentRole == some "Admin") = true := by
      simp [hrole]
    have hout : handleCodeChange st s target code
        = ({ st with rooms := saveRoom st.rooms { room with code := code } },
           [Emit.codeUpdateOthers target code]) := by
      unfold handleCodeChange
      rw [hgate, hfind]
      rfl
    have hid0 : room.roomId = target := findOne_roomId hfind
    have hid : ({ room with code := code } : Room).roomId = target := hid0
    refine ⟨?_, ?_, ?_⟩
    · rw [hout]
      exact findOne_saveRoom_update hfind hid
    · rw [hout]
    · intro hne
      rw [hout]
      exact findOne_saveRoom_other (fun h3 => hne (h3.symm.trans hid))

/-- Witness for C10: a Developer joined to r1 edits room r2. -/
theorem handlers_address_payload_room_witness :
    sessDev.currentRoom = some "r1"
    ∧ sessDev.currentRole = some "Developer"
    ∧ findOne stW10.rooms "r2" = some ⟨"r2", ["bob"], "old", "javascript"⟩
    ∧ findOne (handleCodeChange stW10 sessDev "r2" "new").1.rooms "r2"
      = some ⟨"r2", ["bob"], "new", "javascript"⟩
    ∧ (handleCodeChange stW10 sessDev "r2" "new").2
      = [Emit.codeUpdateOthers "r2" "new"]
    ∧ findOne (handleCodeChange stW10 sessDev "r2" "new").1.rooms "r1"
      = findOne stW10.rooms "r1" :=
  ⟨by decide, by decide, by decide,
   ((handlers_address_payload_room stW10).2.2.2 sessDev "r1" "r2" "new"
     ⟨"r2", ["bob"], "old", "javascript"⟩ rfl rfl (by decide)).1,
   ((handlers_address_payload_room stW10).2.2.2 sessDev "r1" "r2" "new"
     ⟨"r2", ["bob"], "old", "javascript"⟩ rfl rfl (by decide)).2.1,
   ((handlers_address_payload_room stW10).2.2.2 sessDev "r1" "r2" "new"
     ⟨"r2", ["bob"], "old", "javascript"⟩ rfl rfl (by decide)).2.2 (by decide)⟩

/-- Claim C8: join is idempotent on membership — joining a room whose
users list already contains userName leaves the stored room unchanged;
and no sequence of events (joins included) ever introduces a duplicate
entry into any room's users list. -/
theorem join_idempotent_membership (st : ServerState)
    (ps : List (Session × Event)) :
    (∀ (sess : Session) (roomId userName role : String) (room : Room),
        findOne st.rooms roomId = some room →
        room.users.contains userName = true →
        findOne (handleJoin st sess roomId userName role).1.rooms roomId
          = some room)
    ∧ (NodupUsers st → NodupUsers (runEvents st ps)) := by
  constructor
  · intro sess roomId userName role room hf hc
    have hmem : userName ∈ room.users := by simpa using hc
    have hrooms : (handleJoin st sess roomId userName role).1.rooms
        = saveRoom st.rooms room := by
      simp [handleJoin, hf, hmem]
    rw [hrooms]
    exact findOne_saveRoom_update hf (findOne_roomId hf)
  · exact nodupUsers_runEvents ps

/-- Witness for C8: alice rejoins r1, where she is already a member. -/
theorem join_idempotent_membership_witness :
    findOne stW1.rooms "r1" = some ⟨"r1", ["alice"], "let x = 1", "python"⟩
    ∧ (⟨"r1", ["alice"], "let x = 1", "python"⟩ : Room).users.contains "alice"
        = true
    ∧ findOne (handleJoin stW1 Session.initial "r1" "alice" "Admin").1.rooms "r1"
      = some ⟨"r1", ["alice"], "let x = 1", "python"⟩ :=
  ⟨by decide, by decide,
   (join_idempotent_membership stW1 []).1 Session.initial "r1" "alice" "Admin"
     ⟨"r1", ["alice"], "let x = 1", "python"⟩ (by decide) (by decide)⟩

/-- Claim C5: no event ever deletes a Room — after any sequence of events
every Room once present still exists — and a join to an existing Room
hydrates the joining connection with the code and language currently
stored in that Room, not the defaults. -/
theorem rooms_persist_and_rejoin_hydrates (st : ServerState)
    (ps : List (Session × Event)) (roomId : String) :
    (roomExists st roomId = true → roomExists (runEvents st ps) roomId = true)
    ∧ (∀ (sess : Session) (room : Room) (userName role : String),
        findOne st.rooms roomId = some room →
        Emit.codeUpdateSelf room.code
            ∈ (handleJoin st sess roomId userName role).2.2
        ∧ Emit.languageUpdateSelf room.language
            ∈ (handleJoin st sess roomId userName role).2.2) := by
  constructor
  · exact roomExists_runEvents ps
  · intro sess room userName role hf
    constructor <;>
    · simp only [handleJoin, hf]
      by_cases hm : userName ∈ room.users
      · simp [hm]
      · simp [hm]

/-- Witness for C5: a room emptied by exits survives a leaveRoom and a
foreign codeChange, and rejoining it hydrates the prior code/language. -/
theorem rooms_persist_and_rejoin_hydrates_witness :
    roomExists stW1 "r1" = true
    ∧ roomExists (runEvents stW1
        [(sessDev, Event.leaveRoom),
         (sessDev, Event.codeChange "r1" "v2"),
         (sessTester, Event.disconnect)]) "r1" = true
    ∧ (Emit.codeUpdateSelf "let x = 1"
        ∈ (handleJoin stW1 Session.initial "r1" "carol" "Admin").2.2
      ∧ Emit.languageUpdateSelf "python"
        ∈ (handleJoin stW1 Session.initial "r1" "carol" "Admin").2.2) :=
  ⟨by decide,
   (rooms_persist_and_rejoin_hydrates stW1
     [(sessDev, Event.leaveRoom),
      (sessDev, Event.codeChange "r1" "v2"),
      (sessTester, Event.disconnect)] "r1").1 (by decide),
   (rooms_persist_and_rejoin_hydrates stW1 [] "r1").2 Session.initial
     ⟨"r1", ["alice"], "let x = 1", "python"⟩ "carol" "Admin" (by decide)⟩

/-- Claim C3 counterexample: a connection that joins room r1 with the
empty userName is in the Joined state (currentRoom and currentUser are
both bound), yet leaveRoom/disconnect is a complete no-op for it: the
guard `if (currentRoom && currentUser)` treats the empty string as falsy,
so nothing is removed from the room, nothing is emitted, and the session
variables are not cleared. -/
theorem exit_empty_userName_noop_counterexample :
    (handleJoin ⟨[], []⟩ Session.initial "r1" "" "Admin").2.1.currentRoom ≠ none
    ∧ (handleJoin ⟨[], []⟩ Session.initial "r1" "" "Admin").2.1.currentUser ≠ none
    ∧ handleUserExit (handleJoin ⟨[], []⟩ Session.initial "r1" "" "Admin").1
        (handleJoin ⟨[], []⟩ Session.initial "r1" "" "Admin").2.1
      = ((handleJoin ⟨[], []⟩ Session.initial "r1" "" "Admin").1,
         (handleJoin ⟨[], []⟩ Session.initial "r1" "" "Admin").2.1, [])
    ∧ findOne (handleUserExit (handleJoin ⟨[], []⟩ Session.initial "r1" "" "Admin").1
        (handleJoin ⟨[], []⟩ Session.initial "r1" "" "Admin").2.1).1.rooms "r1"
      = some ⟨"r1", [""], "", "javascript"⟩ := by decide

/-- Claim C3 (amended): provided the bound roomId and userName are
nonempty strings, leaveRoom/disconnect on a Joined session removes every
occurrence of the userName from the joined Room's users list, broadcasts
the updated membership when the Room exists (and emits nothing when it
does not), and clears the session variables; on a session with
currentRoom or currentUser unbound, both events are no-ops that mutate
nothing and emit nothing. -/
theorem exit_clears_session_and_removes_user (st : ServerState)
    (sess : Session) :
    (∀ (roomId userName : String) (room : Room),
        sess.currentRoom = some roomId → sess.currentUser = some userName →
        roomId ≠ "" → userName ≠ "" →
        findOne st.rooms roomId = some room →
        findOne (handleUserExit st sess).1.rooms roomId
          = some { room with
                   users := room.users.filter (fun u => u != userName) }
        ∧ userName ∉ room.users.filter (fun u => u != userName)
        ∧ (handleUserExit st sess).2.1 = Session.initial
        ∧ (handleUserExit st sess).2.2
          = [Emit.userJoined roomId
               (room.users.filter (fun u => u != userName))])
    ∧ (∀ roomId userName : String,
        sess.currentRoom = some roomId → sess.currentUser = some userName →
        roomId ≠ "" → userName ≠ "" →
        findOne st.rooms roomId = none →
        handleUserExit st sess = (st, Session.initial, []))
    ∧ (sess.currentRoom = none ∨ sess.currentUser = none →
        handleUserExit st sess = (st, sess, [])) := by
  refine ⟨?_, ?_, ?_⟩
  · intro roomId userName room hR hU hRne hUne hf
    have htr : (truthy (some roomId) && truthy (some userName)) = true := by
      simp [truthy, hRne, hUne]
    have hout : handleUserExit st sess
        = ({ st with rooms := saveRoom st.rooms
                                ({ room with users :=
                                    room.users.filter (fun u => u != userName) }) },
           Session.initial,
           [Emit.userJoined roomId
              (room.users.filter (fun u => u != userName))]) := by
      simp [handleUserExit, hR, hU, htr, hf]
    have hid0 : room.roomId = roomId := findOne_roomId hf
    refine ⟨?_, ?_, ?_, ?_⟩
    · rw [hout]
      exact findOne_saveRoom_update hf hid0
    · simp [List.mem_filter]
    · rw [hout]
    · rw [hout]
  · intro roomId userName hR hU hRne hUne hf
    have htr : (truthy (some roomId) && truthy (some userName)) = true := by
      simp [truthy, hRne, hUne]
    simp [handleUserExit, hR, hU, htr, hf]
  · intro h
    rcases h with hR | hU
    · simp [handleUserExit, hR, truthy]
    · simp [handleUserExit, hU, truthy]

/-- Witness for the amended C3: alice (Developer, joined to r1) leaves. -/
theorem exit_clears_session_and_removes_user_witness :
    findOne (handleUserExit stW1 sessDev).1.rooms "r1"
      = some ⟨"r1", [], "let x = 1", "python"⟩
    ∧ (handleUserExit stW1 sessDev).2.1 = Session.initial
    ∧ (handleUserExit stW1 sessDev).2.2 = [Emit.userJoined "r1" []] :=
  ⟨((exit_clears_session_and_removes_user stW1 sessDev).1 "r1" "alice"
      ⟨"r1", ["alice"], "let x = 1", "python"⟩ rfl rfl (by decide) (by decide)
      (by decide)).1,
   ((exit_clears_session_and_removes_user stW1 sessDev).1 "r1" "alice"
      ⟨"r1", ["alice"], "let x = 1", "python"⟩ rfl rfl (by decide) (by decide)
      (by decide)).2.2.1,
   ((exit_clears_session_and_removes_user stW1 sessDev).1 "r1" "alice"
      ⟨"r1", ["alice"], "let x = 1", "python"⟩ rfl rfl (by decide) (by decide)
      (by decide)).2.2.2⟩

/-- Claim C6 counterexample: a Developer's codeChange whose store write
fails aborts with an unhandled rejection: the persistence failure is real
(`threw = true`) yet the emission list is empty, so nothing — in
particular no failure report — is sent back to the originating
connection, contrary to the claim. -/
theorem storeFailure_unreported_counterexample :
    (handleCodeChangeF stW1 sessDev "r1" "y" false).threw = true
    ∧ (handleCodeChangeF stW1 sessDev "r1" "y" false).emits = [] := by decide

/-- Claim C6 (amended): for every mutating room event whose persistence
write fails, no update broadcast is emitted (broadcast happens only after
the store write completes) and the durable store is unchanged — but the
failure is reported to no one: the handler aborts silently, sending
nothing to the originating connection either. -/
theorem storeFailure_silent_no_broadcast (st : ServerState) (sess : Session)
    (roomId userName role code language text : String) (line : Int)
    (now : Nat) :
    ((handleCodeChangeF st sess roomId code false).emits = []
      ∧ (handleCodeChangeF st sess roomId code false).state = st)
    ∧ ((handleLanguageChangeF st sess roomId language false).emits = []
      ∧ (handleLanguageChangeF st sess roomId language false).state = st)
    ∧ ((handleRemarkAddF st sess roomId text line now false).emits = []
      ∧ (handleRemarkAddF st sess roomId text line now false).state = st)
    ∧ ((handleJoinF st sess roomId userName role false).2.2.1 = []
      ∧ (handleJoinF st sess roomId userName role false).1 = st) := by
  refine ⟨⟨?_, ?_⟩, ⟨?_, ?_⟩, ⟨?_, ?_⟩, ⟨?_, ?_⟩⟩
  · unfold handleCodeChangeF
    split
    · split <;> rfl
    · rfl
  · unfold handleCodeChangeF
    split
    · split <;> rfl
    · rfl
  · unfold handleLanguageChangeF
    split
    · split <;> rfl
    · rfl
  · unfold handleLanguageChangeF
    split
    · split <;> rfl
    · rfl
  · unfold handleRemarkAddF
    split <;> rfl
  · unfold handleRemarkAddF
    split <;> rfl
  · rfl
  · rfl

/-- A sequence of poll responses: two in-progress states, then a
terminal one, then a stale extra entry. -/
def demoResponses : List ExecResult :=
  [⟨1, "In Queue", none, none, 0, "0"⟩,
   ⟨2, "Processing", none, none, 0, "0"⟩,
   ⟨3, "Accepted", some "hello", none, 1024, "0.01"⟩,
   ⟨3, "Accepted", some "stale", none, 0, "0"⟩]

/-- Claim C9: whenever the response stream eventually carries a status id
strictly above the fixed in-progress threshold (2), the polling loop
terminates exactly at the first such response — every earlier response has
status at or below the threshold and does not end the loop — and the
handler responds with that result's output, status description, memory
and time; the threshold and the polling interval are the fixed constants
2 and 2000 ms. -/
theorem compile_polls_until_first_terminal (responses : List ExecResult)
    (h : ∃ r ∈ responses, r.statusId > inProgressThreshold) :
    ∃ r pre post, responses = pre ++ r :: post
      ∧ r.statusId > inProgressThreshold
      ∧ (∀ r' ∈ pre, ¬ r'.statusId > inProgressThreshold)
      ∧ pollLoop responses = some r
      ∧ compileHandler responses = some (compileResponse r)
      ∧ inProgressThreshold = 2 ∧ pollIntervalMs = 2000 := by
  induction responses with
  | nil => simp at h
  | cons a l ih =>
    by_cases ha : a.statusId > inProgressThreshold
    · exact ⟨a, [], l, rfl, ha, by simp, by simp [pollLoop, ha],
        by simp [compileHandler, pollLoop, ha], rfl, rfl⟩
    · have h2 : ∃ r ∈ l, r.statusId > inProgressThreshold := by
        rcases h with ⟨r, hr, hgt⟩
        rcases List.mem_cons.mp hr with h1 | h1
        · exact absurd (h1 ▸ hgt) ha
        · exact ⟨r, h1, hgt⟩
      obtain ⟨r, pre, post, heq, hgt, hpre, hpoll, hresp, _, _⟩ := ih h2
      refine ⟨r, a :: pre, post, by rw [heq]; rfl, hgt, ?_, ?_, ?_, rfl, rfl⟩
      · intro r' hr'
        rcases List.mem_cons.mp hr' with h1 | h1
        · exact h1 ▸ ha
        · exact hpre r' h1
      · simpa [pollLoop, ha] using hpoll
      · simpa [compileHandler, pollLoop, ha] using hresp

/-- Witness for C9 on the concrete response stream. -/
theorem compile_polls_until_first_terminal_witness :
    ∃ r pre post, demoResponses = pre ++ r :: post
      ∧ r.statusId > inProgressThreshold
      ∧ (∀ r' ∈ pre, ¬ r'.statusId > inProgressThreshold)
      ∧ pollLoop demoResponses = some r
      ∧ compileHandler demoResponses = some (compileResponse r)
      ∧ inProgressThreshold = 2 ∧ pollIntervalMs = 2000 :=
  compile_polls_until_first_terminal demoResponses (by decide)
